import Mathlib

/-!
Verification of the NCCN test-notation parser
(`importers/nccn_notation_parser.py`).

The Python module is shallowly embedded below.  Strings are modelled as
`List Char`; Python's regular-expression calls are translated into explicit
scanning functions whose leftmost/greedy/backtracking behaviour matches the
`re` module on the patterns actually used (analysed pattern by pattern in
the comments).  Case-insensitive matching, `str.lower`/`str.upper` and
`str.strip` are modelled at ASCII fidelity via `Char.toLower`/`Char.toUpper`
and an explicit whitespace predicate matching Python's `\s` on ASCII.
-/

set_option maxRecDepth 4000

namespace NCCN

/-- ASCII whitespace, the characters matched by Python's `\s` and stripped
by `str.strip()` on ASCII input: space, tab, newline, carriage return,
vertical tab, form feed. -/
def isSpace (c : Char) : Bool :=
  c == ' ' || c == '\t' || c == '\n' || c == '\r' || c == '\x0b' || c == '\x0c'

/-- `str.lstrip()` on ASCII. -/
def lstrip (s : List Char) : List Char := s.dropWhile isSpace

/-- `str.rstrip()` on ASCII. -/
def rstrip (s : List Char) : List Char := (s.reverse.dropWhile isSpace).reverse

/-- `str.strip()` on ASCII. -/
def strip (s : List Char) : List Char := rstrip (lstrip s)

/-- `str.lower()` on ASCII. -/
def lowerL (s : List Char) : List Char := s.map Char.toLower

/-- `str.upper()` on ASCII. -/
def upperL (s : List Char) : List Char := s.map Char.toUpper

/-- Case-insensitive character comparison, as used by `re.IGNORECASE`
on ASCII letters. -/
def lowerEq (a c : Char) : Bool := a.toLower == c.toLower

/-- Case-insensitive literal prefix match: if `s` starts (case-insensitively)
with `pat`, return the rest of `s`. -/
def ciStarts : List Char → List Char → Option (List Char)
  | [], s => some s
  | _ :: _, [] => none
  | a :: pat, c :: s => if lowerEq a c then ciStarts pat s else none

/-- Substring test (`needle in hay` for Python `str`). -/
def startsL : List Char → List Char → Bool
  | [], _ => true
  | _ :: _, [] => false
  | a :: pat, c :: s => a == c && startsL pat s

/-- `needle in hay` for Python strings: `needle` occurs somewhere in `hay`. -/
def containsL (hay needle : List Char) : Bool :=
  match hay with
  | [] => needle.isEmpty
  | _ :: rest => startsL needle hay || containsL rest needle

/-- `int()` of a nonempty digit string. -/
def digitsToNat (ds : List Char) : Nat :=
  ds.foldl (fun n c => 10 * n + (c.toNat - 48)) 0

-- ===========================================================================
-- DATA CLASSES (mirroring the Python dataclasses)
-- ===========================================================================

/-- Mirrors the `CancerCondition` dataclass. -/
structure CancerCondition where
  cancer_type : List Char
  age_diagnosed : Option Nat := none
  gleason_score : Option Nat := none
  is_aggressive : Option Bool := none
  is_metastatic : Option Bool := none
  additional_notes : Option (List Char) := none
  deriving DecidableEq

/-- Mirrors the `RelativeEntry` dataclass. -/
structure RelativeEntry where
  relationship : List Char
  relationship_type : List Char
  specific_relative : Option (List Char) := none
  conditions : List CancerCondition := []
  is_same_relative : Bool := false
  deriving DecidableEq

/-- Mirrors the `ParsedTestCase` dataclass (the source calls the record
`ParsedTestCase` and the entry point `parse_test_notation`; the entry point
is embedded below as `parse`, the spec's name for it). -/
structure ParsedTestCase where
  expected_outcome : List Char
  entries : List RelativeEntry := []
  raw_notation : List Char := []
  target_rule : Option (List Char) := none
  platform : Option (List Char) := none
  parse_errors : List (List Char) := []
  deriving DecidableEq

-- ===========================================================================
-- MAPPING CONSTANTS (mirroring the Python dicts; insertion order preserved)
-- ===========================================================================

/-- `dict.get key` over an association list (Python dicts preserve order). -/
def lookupL : List (List Char × List Char) → List Char → Option (List Char)
  | [], _ => none
  | (k, v) :: rest, key => if key = k then some v else lookupL rest key

/-- Mirrors `RELATIONSHIP_MAP`. -/
def RELATIONSHIP_MAP : List (List Char × List Char) :=
  [("PHX".data, "patient".data),
   ("PATIENT".data, "patient".data),
   ("FDR".data, "first_degree".data),
   ("FIRST DEGREE".data, "first_degree".data),
   ("SDR".data, "second_degree".data),
   ("SECOND DEGREE".data, "second_degree".data),
   ("TDR".data, "third_degree".data),
   ("THIRD DEGREE".data, "third_degree".data)]

/-- Mirrors `OUTCOME_MAP`. -/
def OUTCOME_MAP : List (List Char × List Char) :=
  [("POS".data, "positive".data),
   ("POSITIVE".data, "positive".data),
   ("NEG".data, "negative".data),
   ("NEGATIVE".data, "negative".data),
   ("DEP".data, "deprecated".data),
   ("DEPRECATED".data, "deprecated".data)]

/-- Mirrors `CANCER_TYPE_MAP`. -/
def CANCER_TYPE_MAP : List (List Char × List Char) :=
  [("PROSTATE".data, "Prostate".data),
   ("PROSTATE CANCER".data, "Prostate".data),
   ("BREAST".data, "Breast".data),
   ("BREAST CANCER".data, "Breast".data),
   ("MALE BREAST".data, "Male Breast".data),
   ("MALE BREAST CANCER".data, "Male Breast".data),
   ("COLON".data, "Colorectal".data),
   ("COLON CANCER".data, "Colorectal".data),
   ("COLORECTAL".data, "Colorectal".data),
   ("COLORECTAL CANCER".data, "Colorectal".data),
   ("RECTAL".data, "Colorectal".data),
   ("OVARIAN".data, "Ovarian".data),
   ("OVARIAN CANCER".data, "Ovarian".data),
   ("OVARY".data, "Ovarian".data),
   ("ENDOMETRIAL".data, "Endometrial".data),
   ("ENDOMETRIAL CANCER".data, "Endometrial".data),
   ("UTERINE".data, "Endometrial".data),
   ("PANCREATIC".data, "Pancreatic".data),
   ("PANCREATIC CANCER".data, "Pancreatic".data),
   ("PANCREAS".data, "Pancreatic".data),
   ("RENAL".data, "Kidney".data),
   ("RENAL CANCER".data, "Kidney".data),
   ("KIDNEY".data, "Kidney".data),
   ("KIDNEY CANCER".data, "Kidney".data),
   ("MESOTHELIOMA".data, "Mesothelioma".data),
   ("UVEAL MELANOMA".data, "Uveal Melanoma".data),
   ("MELANOMA OF EYE".data, "Uveal Melanoma".data),
   ("EYE MELANOMA".data, "Uveal Melanoma".data),
   ("GASTRIC".data, "Gastric".data),
   ("GASTRIC CANCER".data, "Gastric".data),
   ("STOMACH".data, "Gastric".data)]

-- ===========================================================================
-- OUTCOME EXTRACTION
-- `re.match(r'^(POS|NEG|POSITIVE|NEGATIVE|DEP|DEPRECATED)\s*:\s*', s, re.I)`
-- ===========================================================================

/-- The alternation of the outcome regex, in regex order. -/
def OUTCOME_ALTS : List (List Char) :=
  ["POS".data, "NEG".data, "POSITIVE".data, "NEGATIVE".data,
   "DEP".data, "DEPRECATED".data]

/-- Matching of `\s*:\s*`: greedy whitespace must be followed by `:`
(the engine's backtracking can never help here, since giving back a
whitespace character makes the `:` literal face whitespace), then greedy
trailing whitespace; returns the text after the whole separator. -/
def matchSep (s : List Char) : Option (List Char) :=
  match s.dropWhile isSpace with
  | ':' :: u => some (u.dropWhile isSpace)
  | _ => none

/-- Regex alternation tries the alternatives left to right, each followed by
the separator; on separator failure it backtracks to the next alternative.
On success the canonical outcome is `OUTCOME_MAP.get(group(1).upper(),
'unknown')`; for a case-insensitive match of an uppercase literal token,
`group(1).upper()` is the token itself. -/
def tryOutcome : List (List Char) → List Char → Option (List Char × List Char)
  | [], _ => none
  | tok :: rest, s =>
    match ciStarts tok s with
    | some r =>
      match matchSep r with
      | some rem => some ((lookupL OUTCOME_MAP tok).getD "unknown".data, strip rem)
      | none => tryOutcome rest s
    | none => tryOutcome rest s

/-- Mirrors `_extract_outcome`. -/
def extract_outcome (s : List Char) : List Char × List Char :=
  match tryOutcome OUTCOME_ALTS s with
  | some pr => pr
  | none => ("unknown".data, s)

-- ===========================================================================
-- SEGMENT SPLITTING  (`re.split(r'\s+AND\s+', s, flags=re.I)`)
-- ===========================================================================

/-- Does the delimiter `\s+AND\s+` match at the start of `s`?  Leading `\s+`
is a nonempty greedy whitespace run (backtracking cannot help: `AND` must
follow the run immediately since its first letter is not whitespace), then
`AND` case-insensitively, then a nonempty greedy whitespace run.  Returns
the text after the match. -/
def matchAndDelim (s : List Char) : Option (List Char) :=
  if (s.takeWhile isSpace).isEmpty then none
  else
    match ciStarts "AND".data (s.dropWhile isSpace) with
    | some u =>
      if (u.takeWhile isSpace).isEmpty then none else some (u.dropWhile isSpace)
    | none => none

/-- `re.split` scans left to right: at each position, if the delimiter
matches, the accumulated part ends and scanning resumes after the match;
otherwise the character joins the current part.  The fuel argument is an
upper bound on the number of steps (each step consumes at least one
character, so `s.length + 1` always suffices); it only makes the recursion
structural. -/
def splitAndAux : Nat → List Char → List Char → List (List Char)
  | 0, s, acc => [acc.reverse ++ s]
  | _ + 1, [], acc => [acc.reverse]
  | fuel + 1, c :: cs, acc =>
    match matchAndDelim (c :: cs) with
    | some rest => acc.reverse :: splitAndAux fuel rest []
    | none => splitAndAux fuel cs (c :: acc)

/-- Mirrors `_split_by_and`:
`[p.strip() for p in re.split(r'\s+AND\s+', s, flags=re.I) if p.strip()]`. -/
def split_by_and (s : List Char) : List (List Char) :=
  ((splitAndAux (s.length + 1) s []).map strip).filter (fun p => !p.isEmpty)

-- ===========================================================================
-- CONDITION EXTRACTION (`_parse_condition`)
-- ===========================================================================

/-- `re.search(r'\(([^)]+)\)', s)`: the leftmost `(` that is followed by a
nonempty run of non-`)` characters terminated by `)` (`[^)]+` is greedy and
its backtracking cannot produce the missing `)`, so the match at a given
`(` succeeds iff the maximal non-`)` run after it is nonempty and
terminated by `)`).  Returns (text before the match, group 1, text after
the match). -/
def parenSearch : List Char → Option (List Char × List Char × List Char)
  | [] => none
  | c :: rest =>
    let inner := rest.takeWhile (fun x => x != ')')
    let after := rest.dropWhile (fun x => x != ')')
    if c = '(' && !inner.isEmpty && after.headD ' ' = ')' then
      some ([], inner, after.tail)
    else
      match parenSearch rest with
      | some (b, i, a) => some (c :: b, i, a)
      | none => none

/-- `match.group(1)` of the parenthetical search, i.e. the raw notes. -/
def notesOf (s : List Char) : Option (List Char) :=
  match parenSearch s with
  | some (_, inner, _) => some inner
  | none => none

/-- The condition string with the matched parenthetical removed:
`s[:match.start()] + s[match.end():]`. -/
def stripParen (s : List Char) : List Char :=
  match parenSearch s with
  | some (b, _, a) => b ++ a
  | none => s

/-- The aggressiveness flag set while scanning the parenthetical notes:
`if 'aggressive' in notes: True
 elif 'non-aggressive' in notes or 'non aggressive' in notes: False`
(over `notes = group(1).lower()`).  Note the `elif` branch is unreachable:
any notes containing `non-aggressive` or `non aggressive` also contain
`aggressive`. -/
def aggrFromNotes (s : List Char) : Option Bool :=
  match notesOf s with
  | none => none
  | some inner =>
    let notes := lowerL inner
    if containsL notes "aggressive".data then some true
    else if containsL notes "non-aggressive".data
            || containsL notes "non aggressive".data then some false
    else none

/-- The metastatic flag from the parenthetical notes:
`if 'metastatic' in notes: True`. -/
def metaFromNotes (s : List Char) : Option Bool :=
  match notesOf s with
  | none => none
  | some inner =>
    if containsL (lowerL inner) "metastatic".data then some true else none

/-- A `:` or whitespace character: the class `[:\s]`. -/
def isAgeSep (c : Char) : Bool := c == ':' || isSpace c

/-- Match `age[:\s]+(\d+)` at the start of `s` (group 1 as a number).
`[:\s]+` is a nonempty greedy run (backtracking cannot help: a digit can
never match a given-back `[:\s]` character), then greedy digits. -/
def ageNumAt (s : List Char) : Option Nat :=
  match ciStarts "age".data s with
  | some r =>
    if (r.takeWhile isAgeSep).isEmpty then none
    else
      let d := (r.dropWhile isAgeSep).takeWhile Char.isDigit
      if d.isEmpty then none else some (digitsToNat d)
  | none => none

/-- `re.search(r'age[:\s]+(\d+)', s, re.I)`: leftmost position where the
pattern matches. -/
def ageSearch : List Char → Option Nat
  | [] => none
  | c :: cs =>
    match ageNumAt (c :: cs) with
    | some n => some n
    | none => ageSearch cs

/-- After the literal `gleason`, match `[:\s]*(?:score[:\s]*)?\s*(\d+)`:
skip the greedy `[:\s]` run; if digits follow, that is the number; the
optional `score` branch applies exactly when the literal `score` follows
(the two cases are disjoint — `s` is not a digit — and when the `score`
branch fails, falling back to the no-`score` branch faces the `s` of
`score`, which is not a digit, so the whole position fails).  The `\s*`
after the optional group is subsumed by the sibling `[:\s]*` runs.
Returns the number and the text after the matched digits. -/
def gleasonNum (r : List Char) : Option (Nat × List Char) :=
  let t := r.dropWhile isAgeSep
  let d := t.takeWhile Char.isDigit
  if !d.isEmpty then some (digitsToNat d, t.dropWhile Char.isDigit)
  else
    match ciStarts "score".data t with
    | some u =>
      let u2 := u.dropWhile isAgeSep
      let d2 := u2.takeWhile Char.isDigit
      if d2.isEmpty then none else some (digitsToNat d2, u2.dropWhile Char.isDigit)
    | none => none

/-- `re.search(r'gleason[:\s]*(?:score[:\s]*)?\s*(\d+)', s, re.I)`:
leftmost position where `gleason` heads a full match. -/
def gleasonSearch : List Char → Option Nat
  | [] => none
  | c :: cs =>
    match ciStarts "gleason".data (c :: cs) with
    | some r =>
      match gleasonNum r with
      | some pr => some pr.1
      | none => gleasonSearch cs
    | none => gleasonSearch cs

/-- Match `,?\s*age[:\s]+\d+` at the start of `s`; returns the text after
the match.  `,?` takes a leading comma when present (if the rest then
fails, retrying without the comma faces the comma with `\s*`/`age` and
fails too), `\s*` is a greedy run, then as in `ageNumAt`. -/
def ageSubAt (s : List Char) : Option (List Char) :=
  let s1 := match s with | ',' :: r => r | _ => s
  let s2 := s1.dropWhile isSpace
  match ciStarts "age".data s2 with
  | some r =>
    if (r.takeWhile isAgeSep).isEmpty then none
    else
      let d := (r.dropWhile isAgeSep).takeWhile Char.isDigit
      if d.isEmpty then none else some ((r.dropWhile isAgeSep).dropWhile Char.isDigit)
  | none => none

/-- Match `,?\s*gleason[:\s]*(?:score[:\s]*)?\s*\d+` at the start of `s`;
returns the text after the match. -/
def gleasonSubAt (s : List Char) : Option (List Char) :=
  let s1 := match s with | ',' :: r => r | _ => s
  let s2 := s1.dropWhile isSpace
  match ciStarts "gleason".data s2 with
  | some r =>
    match gleasonNum r with
    | some pr => some pr.2
    | none => none
  | none => none

/-- `re.sub(pat, '', s)` for the age pattern: scan left to right replacing
each non-overlapping match by the empty string.  Fuel as in `splitAndAux`. -/
def subAllAge : Nat → List Char → List Char
  | 0, s => s
  | _ + 1, [] => []
  | fuel + 1, c :: cs =>
    match ageSubAt (c :: cs) with
    | some rest => subAllAge fuel rest
    | none => c :: subAllAge fuel cs

/-- `re.sub(pat, '', s)` for the gleason pattern. -/
def subAllGleason : Nat → List Char → List Char
  | 0, s => s
  | _ + 1, [] => []
  | fuel + 1, c :: cs =>
    match gleasonSubAt (c :: cs) with
    | some rest => subAllGleason fuel rest
    | none => c :: subAllGleason fuel cs

/-- `re.sub(r'\s*,\s*$', '', s)`: the single anchored match, when present,
covers the trailing whitespace run, one comma, and the whitespace run
before it, so the result drops those; otherwise `s` is unchanged. -/
def stripTrailingComma (s : List Char) : List Char :=
  let t := rstrip s
  match t.getLast? with
  | some ',' => rstrip t.dropLast
  | _ => s

/-- Mirrors `_parse_condition`. -/
def parse_condition (condition_str : List Char) : CancerCondition :=
  if condition_str.isEmpty then
    { cancer_type := "Unknown".data, age_diagnosed := none, gleason_score := none,
      is_aggressive := none, is_metastatic := none, additional_notes := none }
  else
    let s1 := stripParen condition_str
    let aggr0 := aggrFromNotes condition_str
    let gle := gleasonSearch s1
    -- "Gleason 7+ is generally considered aggressive"
    let aggr :=
      match gle with
      | some g => if aggr0 = none ∧ 7 ≤ g then some true else aggr0
      | none => aggr0
    let c1 := subAllAge (s1.length + 1) s1
    let c2 := subAllGleason (c1.length + 1) c1
    let c4 := strip (stripTrailingComma c2)
    { cancer_type := (lookupL CANCER_TYPE_MAP (upperL c4)).getD c4,
      age_diagnosed := ageSearch s1,
      gleason_score := gle,
      is_aggressive := aggr,
      is_metastatic := metaFromNotes condition_str,
      additional_notes := notesOf condition_str }

-- ===========================================================================
-- ENTRY PARSING (`_parse_single_entry`)
-- `re.match(r'^(PHX|FDR|SDR|TDR|PATIENT)\s*:\s*(.+)$', s, re.I)`
-- ===========================================================================

/-- `(.+)$` against `b`: `.` matches anything but `'\n'`; greedy `.+` takes
the maximal newline-free prefix `r`, and `$` then requires the rest to be
empty or the single final newline (shortening `.+` leaves a non-newline
character facing `$`, so backtracking never helps).  Returns group `.+`. -/
def dotPlus (b : List Char) : Option (List Char) :=
  let r := b.takeWhile (fun c => c != '\n')
  let q := b.dropWhile (fun c => c != '\n')
  if r.isEmpty then none
  else if q = [] ∨ q = ['\n'] then some r
  else none

/-- Backtracking loop for `\s*(.+)$`: the greedy `\s*` first takes the whole
whitespace run (smallest `b`), then gives characters back from the end of
the run one at a time. -/
def relSepTryK : List Char → List Char → Option (List Char)
  | revRun, b =>
    match dotPlus b with
    | some r => some r
    | none =>
      match revRun with
      | [] => none
      | c :: rest => relSepTryK rest (c :: b)

/-- `\s*:\s*(.+)$` against the text after the relationship token;
returns group 2. -/
def matchRelSep (s : List Char) : Option (List Char) :=
  match s.dropWhile isSpace with
  | ':' :: u => relSepTryK (u.takeWhile isSpace).reverse (u.dropWhile isSpace)
  | _ => none

/-- The alternation of the relationship regex, in regex order (no token
is a case-insensitive prefix of another, so at most one can match). -/
def REL_ALTS : List (List Char) :=
  ["PHX".data, "FDR".data, "SDR".data, "TDR".data, "PATIENT".data]

/-- Try the relationship alternatives left to right, each followed by the
separator and a nonempty body.  On success the pair is
(`group(1).upper()`, group 2); for a case-insensitive match of an
uppercase literal token, `group(1).upper()` is the token itself. -/
def tryRel : List (List Char) → List Char → Option (List Char × List Char)
  | [], _ => none
  | tok :: rest, s =>
    match ciStarts tok s with
    | some r =>
      match matchRelSep r with
      | some body => some (tok, body)
      | none => tryRel rest s
    | none => tryRel rest s

/-- The body of `_parse_single_entry` after the initial emptiness test
(which is the only `return None` path; both remaining branches construct
an entry, and `[condition] if condition else []` always keeps the
condition since a dataclass instance is truthy). -/
def parse_entry_body (entry_str : List Char) : RelativeEntry :=
  let same := (ciStarts "same ".data entry_str).isSome
  let e := if same then strip (entry_str.drop 5) else entry_str
  match tryRel REL_ALTS e with
  | some (rel, body) =>
    { relationship := rel,
      relationship_type := (lookupL RELATIONSHIP_MAP rel).getD "unknown".data,
      specific_relative := none,
      conditions := [parse_condition (strip body)],
      is_same_relative := same }
  | none =>
    { relationship := "PHX".data,
      relationship_type := "patient".data,
      specific_relative := none,
      conditions := [parse_condition e],
      is_same_relative := same }

/-- Mirrors `_parse_single_entry`. -/
def parse_single_entry (entry_str : List Char) : Option RelativeEntry :=
  if entry_str.isEmpty then none else some (parse_entry_body entry_str)

-- ===========================================================================
-- PARSE ORCHESTRATOR (`parse_test_notation`)
-- ===========================================================================

/-- The entry loop of `parse_test_notation`: each entry string is parsed;
successes are appended to `entries`, failures append a message to
`parse_errors` (both lists in iteration order). -/
def parseEntries : List (List Char) → List RelativeEntry × List (List Char)
  | [] => ([], [])
  | e :: rest =>
    let pr := parseEntries rest
    match parse_single_entry e with
    | some ent => (ent :: pr.1, pr.2)
    | none => (pr.1, ("Failed to parse entry: ".data ++ e) :: pr.2)

/-- Mirrors `parse_test_notation` (named `parse` as in the specification;
`notation` is the Python parameter name). -/
def parse (nota : List Char) (target_rule platform : Option (List Char)) :
    ParsedTestCase :=
  if (strip nota).isEmpty then
    { expected_outcome := "unknown".data, entries := [],
      raw_notation := nota, target_rule := target_rule, platform := platform,
      parse_errors := ["Empty notation string".data] }
  else
    let n := strip nota
    let outcome := (extract_outcome n).1
    let remainder := (extract_outcome n).2
    if remainder.isEmpty then
      { expected_outcome := outcome, entries := [],
        raw_notation := nota, target_rule := target_rule, platform := platform,
        parse_errors := ["No conditions found after outcome".data] }
    else
      { expected_outcome := outcome,
        entries := (parseEntries (split_by_and remainder)).1,
        raw_notation := nota, target_rule := target_rule, platform := platform,
        parse_errors := (parseEntries (split_by_and remainder)).2 }

-- ===========================================================================
-- SERIALIZER (`notation_to_dict`)
-- ===========================================================================

/-- Python values produced by the serializer: `None`, booleans, integers,
strings, lists and (insertion-ordered) dictionaries. -/
inductive PyVal where
  | vnull : PyVal
  | vbool : Bool → PyVal
  | vnat : Nat → PyVal
  | vstr : List Char → PyVal
  | vlist : List PyVal → PyVal
  | vdict : List (List Char × PyVal) → PyVal

/-- An optional string serializes to the string or an explicit `None`. -/
def optStr : Option (List Char) → PyVal
  | none => PyVal.vnull
  | some s => PyVal.vstr s

/-- An optional integer serializes to the integer or an explicit `None`. -/
def optNat : Option Nat → PyVal
  | none => PyVal.vnull
  | some n => PyVal.vnat n

/-- An optional boolean serializes to the boolean or an explicit `None`. -/
def optBool : Option Bool → PyVal
  | none => PyVal.vnull
  | some b => PyVal.vbool b

/-- The condition dictionary of `notation_to_dict`. -/
def cond_to_dict (c : CancerCondition) : PyVal :=
  match c with
  | ⟨ct, age, gs, ia, im, notes⟩ =>
    .vdict [("cancer_type".data, .vstr ct),
            ("age_diagnosed".data, optNat age),
            ("gleason_score".data, optNat gs),
            ("is_aggressive".data, optBool ia),
            ("is_metastatic".data, optBool im),
            ("additional_notes".data, optStr notes)]

/-- The entry dictionary of `notation_to_dict`. -/
def entry_to_dict (e : RelativeEntry) : PyVal :=
  match e with
  | ⟨rel, rtype, spec, conds, same⟩ =>
    .vdict [("relationship".data, .vstr rel),
            ("relationship_type".data, .vstr rtype),
            ("specific_relative".data, optStr spec),
            ("is_same_relative".data, .vbool same),
            ("conditions".data, .vlist (conds.map cond_to_dict))]

/-- Mirrors `notation_to_dict` (named `serialize` as in the
specification). -/
def serialize (p : ParsedTestCase) : PyVal :=
  match p with
  | ⟨eo, ents, raw, tr, pf, errs⟩ =>
    .vdict [("expected_outcome".data, .vstr eo),
            ("target_rule".data, optStr tr),
            ("platform".data, optStr pf),
            ("raw_notation".data, .vstr raw),
            ("parse_errors".data, .vlist (errs.map PyVal.vstr)),
            ("entries".data, .vlist (ents.map entry_to_dict))]

-- ===========================================================================
-- VALIDATOR (`validate_notation`)
-- ===========================================================================

/-- The report dictionary returned by `validate_notation`. -/
structure ValidationReport where
  valid : Bool
  errors : List (List Char)
  warnings : List (List Char)
  parsed : Option PyVal

/-- The warnings contributed by the entry at (0-based) index `i`:
`"Entry {i+1} has no conditions"` when it has none, otherwise
`"Entry {i+1}, condition {j+1}: Unknown cancer type"` for each condition
with cancer type `Unknown`. -/
def entryWarnings (i : Nat) (e : RelativeEntry) : List (List Char) :=
  if e.conditions.isEmpty then
    ["Entry ".data ++ (Nat.repr (i + 1)).data ++ " has no conditions".data]
  else
    (e.conditions.enum.filterMap fun pr =>
      if pr.2.cancer_type = "Unknown".data then
        some ("Entry ".data ++ (Nat.repr (i + 1)).data ++ ", condition ".data
              ++ (Nat.repr (pr.1 + 1)).data ++ ": Unknown cancer type".data)
      else none)

/-- Mirrors `validate_notation` (named `validate` as in the
specification). -/
def validate (nota : List Char) : ValidationReport :=
  if (strip nota).isEmpty then
    { valid := false, errors := ["Notation is empty".data],
      warnings := [], parsed := none }
  else
    let p := parse nota none none
    let w2 := p.parse_errors
      ++ (if p.expected_outcome = "unknown".data
          then ["No POS/NEG outcome prefix found".data] else [])
    if p.entries.isEmpty then
      { valid := false, errors := ["No conditions/entries found in notation".data],
        warnings := w2, parsed := none }
    else
      { valid := true, errors := [],
        warnings := w2 ++ (p.entries.enum.map fun pr => entryWarnings pr.1 pr.2).flatten,
        parsed := some (serialize p) }

-- ===========================================================================
-- CLAIM C9 — empty-input hard failure of the validator
-- ===========================================================================

/-- C9: `validate("")` and `validate("   ")` both return a report with
`valid = false`, the single error `"Notation is empty"`, and
`parsed = null`. -/
theorem c9_empty_validation :
    validate [] = ⟨false, ["Notation is empty".data], [], none⟩ ∧
    validate "   ".data = ⟨false, ["Notation is empty".data], [], none⟩ :=
  ⟨rfl, rfl⟩

-- ===========================================================================
-- CLAIM C3 — when the validator report carries the serialized parse
-- ===========================================================================

/-- C3 counterexample: for the non-empty notation `"POS:"`, parsing is
attempted (the empty-notation pre-check passes) and produces zero entries,
yet the report has `parsed = null` — contradicting the claim that the
report contains the serialized parse result whenever parsing was
attempted. -/
theorem c3_parsed_null_although_parsing_attempted :
    strip "POS:".data ≠ [] ∧
    (validate "POS:".data).valid = false ∧
    (validate "POS:".data).parsed = none :=
  ⟨by decide, rfl, rfl⟩

/-- C3 amended: the report contains the serialized parse result exactly
when the report is valid; both the empty-notation pre-check and the
zero-entries hard-error path short-circuit before serialization, so every
invalid report has `parsed = null`. -/
theorem c3_parsed_iff_valid (s : List Char) :
    (validate s).parsed =
      if (validate s).valid = true then some (serialize (parse s none none))
      else none := by
  unfold validate
  cases h1 : (strip s).isEmpty with
  | true => simp [h1]
  | false =>
    cases h2 : (parse s none none).entries.isEmpty with
    | true => simp [h2]
    | false => simp [h2]

-- ===========================================================================
-- CLAIM C2 — empty residual cancer-type label
-- ===========================================================================

/-- C2: evaluation at the failing input.  The non-empty condition fragment
`"Gleason 8"` becomes empty once the severity fragment is removed, and the
resulting condition has `cancer_type = ""` (the empty string), not
`"Unknown"` as the claim states: the `'Unknown'` default the code
initializes the dataclass with is unconditionally overwritten by the
(empty) residual label. -/
theorem c2_empty_remainder_eval :
    "Gleason 8".data ≠ [] ∧
    (parse_condition "Gleason 8".data).cancer_type = [] ∧
    (parse_condition "Gleason 8".data).cancer_type ≠ "Unknown".data :=
  ⟨by decide, rfl, by decide⟩

-- ===========================================================================
-- CLAIM C1 — the "(non-aggressive)" qualifier
-- ===========================================================================

/-- C1: evaluation of the claim's own example.  Parsing
`"NEG: TDR: Prostate, Gleason 5 (non-aggressive)"` yields outcome
`negative`, one `third_degree` entry with one condition of type `Prostate`
and severity 5 — but `is_aggressive = true`, not `false` as the claim
states: the code tests `'aggressive' in notes` before its
`'non-aggressive'` branch, and `"non-aggressive"` contains `"aggressive"`,
so the `False` branch is unreachable. -/
theorem c1_non_aggressive_eval :
    parse "NEG: TDR: Prostate, Gleason 5 (non-aggressive)".data none none =
      { expected_outcome := "negative".data,
        entries := [{ relationship := "TDR".data,
                      relationship_type := "third_degree".data,
                      specific_relative := none,
                      conditions := [{ cancer_type := "Prostate".data,
                                       age_diagnosed := none,
                                       gleason_score := some 5,
                                       is_aggressive := some true,
                                       is_metastatic := none,
                                       additional_notes := some "non-aggressive".data }],
                      is_same_relative := false }],
        raw_notation := "NEG: TDR: Prostate, Gleason 5 (non-aggressive)".data,
        target_rule := none, platform := none, parse_errors := [] } := by
  rfl

-- ===========================================================================
-- CLAIM C4 — the age keyword inside a longer word
-- ===========================================================================

/-- C4 counterexample: in the fragment `"Stage 4"` the letters `age` occur
only inside the longer word `Stage`, yet a diagnosis age is extracted —
contradicting the claim that `age_diagnosed` stays unset. -/
theorem c4_stage_extracts_age :
    (parse_condition "Stage 4".data).age_diagnosed ≠ none := by
  decide

/-- C4 amended: the age keyword is matched as a bare substring, not as a
whole token — age extraction is exactly the leftmost search for `age`
followed by a colon/whitespace run and digits anywhere in the
parenthetical-stripped fragment, so `"Stage 4"` yields
`age_diagnosed = 4`. -/
theorem c4_age_substring_amended :
    (parse_condition "Stage 4".data).age_diagnosed = some 4 ∧
    ∀ s : List Char, (parse_condition s).age_diagnosed = ageSearch (stripParen s) := by
  refine ⟨rfl, fun s => ?_⟩
  cases s with
  | nil => rfl
  | cons c cs => rfl

-- ===========================================================================
-- CLAIM C10 — the metastatic flag is one-directional and substring-based
-- ===========================================================================

/-- C10: whenever the parenthetical notes contain `metastatic`
(case-insensitively, as a bare substring — including inside
`non-metastatic`), the condition has `is_metastatic = true`; and no
condition ever has `is_metastatic = false` (the flag is only ever unset or
true). -/
theorem c10_metastatic_one_directional :
    (∀ s ns, notesOf s = some ns →
        containsL (lowerL ns) "metastatic".data = true →
        (parse_condition s).is_metastatic = some true) ∧
    (∀ s, (parse_condition s).is_metastatic ≠ some false) := by
  constructor
  · intro s ns hns hc
    cases s with
    | nil => simp [notesOf, parenSearch] at hns
    | cons c cs =>
      have h1 : (parse_condition (c :: cs)).is_metastatic = metaFromNotes (c :: cs) := rfl
      rw [h1]
      unfold metaFromNotes
      rw [hns]
      simp [hc]
  · intro s
    cases s with
    | nil => simp [parse_condition]
    | cons c cs =>
      have h1 : (parse_condition (c :: cs)).is_metastatic = metaFromNotes (c :: cs) := rfl
      rw [h1]
      unfold metaFromNotes
      cases hn : notesOf (c :: cs) with
      | none => simp
      | some inner =>
        cases hc : containsL (lowerL inner) "metastatic".data <;> simp [hc]

/-- C10 witness: a concrete negated qualifier `(non-metastatic)` still sets
the flag to true, and that very condition never reports `false`. -/
theorem c10_metastatic_witness :
    notesOf "Prostate (non-metastatic)".data = some "non-metastatic".data ∧
    containsL (lowerL "non-metastatic".data) "metastatic".data = true ∧
    (parse_condition "Prostate (non-metastatic)".data).is_metastatic = some true ∧
    (parse_condition "Prostate (non-metastatic)".data).is_metastatic ≠ some false :=
  ⟨by decide, by decide,
   c10_metastatic_one_directional.1 "Prostate (non-metastatic)".data
     "non-metastatic".data (by decide) (by decide),
   c10_metastatic_one_directional.2 "Prostate (non-metastatic)".data⟩

-- ===========================================================================
-- CLAIM C6 — severity-score aggressiveness inference
-- ===========================================================================

/-- C6: for a condition fragment with no explicit aggressiveness marker in
its parenthetical, a severity (Gleason) score of at least 7 yields
`is_aggressive = true`, a score below 7 leaves `is_aggressive` unset, and
so does the absence of a score. -/
theorem c6_severity_inference (s : List Char) (h : aggrFromNotes s = none) :
    ((parse_condition s).gleason_score = none →
        (parse_condition s).is_aggressive = none) ∧
    (∀ g, (parse_condition s).gleason_score = some g →
        ((7 ≤ g → (parse_condition s).is_aggressive = some true) ∧
         (g < 7 → (parse_condition s).is_aggressive = none))) := by
  cases s with
  | nil =>
    constructor
    · intro _; rfl
    · intro g hg
      rw [show (parse_condition []).gleason_score = none from rfl] at hg
      cases hg
  | cons c cs =>
    have hgs : (parse_condition (c :: cs)).gleason_score
        = gleasonSearch (stripParen (c :: cs)) := rfl
    have hia : (parse_condition (c :: cs)).is_aggressive
        = (match gleasonSearch (stripParen (c :: cs)) with
           | some g =>
             if aggrFromNotes (c :: cs) = none ∧ 7 ≤ g then some true
             else aggrFromNotes (c :: cs)
           | none => aggrFromNotes (c :: cs)) := rfl
    rw [hgs, hia, h]
    cases hg : gleasonSearch (stripParen (c :: cs)) with
    | none => exact ⟨fun _ => rfl, fun g hgeq => by cases hgeq⟩
    | some g =>
      refine ⟨fun hgeq => (by cases hgeq), fun g' hgeq => ?_⟩
      have hgg : g' = g := by cases hgeq; rfl
      subst hgg
      constructor
      · intro h7; simp [h7]
      · intro h7
        have h7n : ¬ (7 ≤ g') := by omega
        simp [h7n]

/-- C6 witness: `"Prostate, Gleason 8"` has no aggressiveness marker and
severity 8, so the inference sets `is_aggressive = true`. -/
theorem c6_severity_inference_witness :
    aggrFromNotes "Prostate, Gleason 8".data = none ∧
    (parse_condition "Prostate, Gleason 8".data).gleason_score = some 8 ∧
    (parse_condition "Prostate, Gleason 8".data).is_aggressive = some true :=
  ⟨by decide, by decide,
   ((c6_severity_inference "Prostate, Gleason 8".data (by decide)).2 8
      (by decide)).1 (by decide)⟩

-- ===========================================================================
-- CLAIM C5 — segment count invariant
-- ===========================================================================

/-- `_parse_single_entry` succeeds on every non-empty entry string: the
emptiness test is its only `None` path. -/
theorem parse_single_entry_eq (e : List Char) (h : e ≠ []) :
    parse_single_entry e = some (parse_entry_body e) := by
  have he : e.isEmpty = false := by
    cases e with
    | nil => exact absurd rfl h
    | cons a l => rfl
  simp [parse_single_entry, he]

/-- The entry loop over non-empty entry strings produces one entry per
string, in order, and no error messages. -/
theorem parseEntries_spec (l : List (List Char)) (h : ∀ e ∈ l, e ≠ []) :
    (parseEntries l).2 = [] ∧
    List.Forall₂ (fun ent seg => parse_single_entry seg = some ent)
      (parseEntries l).1 l := by
  induction l with
  | nil => exact ⟨rfl, List.Forall₂.nil⟩
  | cons e rest ih =>
    obtain ⟨h2, hf⟩ := ih (fun x hx => h x (List.mem_cons_of_mem _ hx))
    have he : parse_single_entry e = some (parse_entry_body e) :=
      parse_single_entry_eq e (h e (List.mem_cons_self _ _))
    constructor
    · show (parseEntries (e :: rest)).2 = []
      simp only [parseEntries, he]
      exact h2
    · show List.Forall₂ _ (parseEntries (e :: rest)).1 (e :: rest)
      simp only [parseEntries, he]
      exact List.Forall₂.cons he hf

/-- C5: whenever the post-outcome remainder splits into at least one
non-empty AND-delimited segment, the parse result has exactly one entry
per segment, in segment order (each entry being the successful parse of
its segment). -/
theorem c5_segment_count (nota : List Char) (tr pf : Option (List Char))
    (h : split_by_and (extract_outcome (strip nota)).2 ≠ []) :
    (parse nota tr pf).entries.length
      = (split_by_and (extract_outcome (strip nota)).2).length ∧
    List.Forall₂ (fun ent seg => parse_single_entry seg = some ent)
      (parse nota tr pf).entries
      (split_by_and (extract_outcome (strip nota)).2) := by
  have h1 : (strip nota).isEmpty = false := by
    cases hs : strip nota with
    | nil => exact absurd (by rw [hs]; rfl) h
    | cons a l => rfl
  have h2 : (extract_outcome (strip nota)).2.isEmpty = false := by
    cases hr : (extract_outcome (strip nota)).2 with
    | nil => exact absurd (by rw [hr]; rfl) h
    | cons a l => rfl
  have hmem : ∀ e ∈ split_by_and (extract_outcome (strip nota)).2, e ≠ [] := by
    intro e he hcontra
    unfold split_by_and at he
    have := List.of_mem_filter he
    rw [hcontra] at this
    simp at this
  obtain ⟨herr, hf⟩ := parseEntries_spec _ hmem
  have hent : (parse nota tr pf).entries
      = (parseEntries (split_by_and (extract_outcome (strip nota)).2)).1 := by
    unfold parse
    simp [h1, h2]
  rw [hent]
  exact ⟨hf.length_eq, hf⟩

/-- C5 witness: a two-segment notation produces exactly two entries. -/
theorem c5_segment_count_witness :
    split_by_and
        (extract_outcome
          (strip "POS: FDR: Breast Cancer, age 45 AND SDR: Ovarian Cancer".data)).2
      ≠ [] ∧
    (parse "POS: FDR: Breast Cancer, age 45 AND SDR: Ovarian Cancer".data
        none none).entries.length
      = (split_by_and
          (extract_outcome
            (strip "POS: FDR: Breast Cancer, age 45 AND SDR: Ovarian Cancer".data)).2).length :=
  ⟨by decide,
   (c5_segment_count "POS: FDR: Breast Cancer, age 45 AND SDR: Ovarian Cancer".data
      none none (by decide)).1⟩

-- ===========================================================================
-- CLAIM C8 — serialization is a lossless structural round-trip
-- ===========================================================================
-- The re-inspection functions below read the serialized mapping back:
-- they demand the exact field names of §3, in order, with optional fields
-- present as explicit nulls, and recover the original structures.  The
-- round-trip theorem therefore certifies field names, ordering, explicit
-- null markers, and value preservation all at once.

/-- Re-inspect an optional string: explicit null or a string. -/
def asOptStr : PyVal → Option (Option (List Char))
  | .vnull => some none
  | .vstr s => some (some s)
  | _ => none

/-- Re-inspect an optional integer: explicit null or an integer. -/
def asOptNat : PyVal → Option (Option Nat)
  | .vnull => some none
  | .vnat n => some (some n)
  | _ => none

/-- Re-inspect an optional boolean: explicit null or a boolean. -/
def asOptBool : PyVal → Option (Option Bool)
  | .vnull => some none
  | .vbool b => some (some b)
  | _ => none

/-- Re-inspect a string. -/
def asStr : PyVal → Option (List Char)
  | .vstr s => some s
  | _ => none

/-- Re-inspect every element of a list, preserving order. -/
def readList {α : Type} (f : PyVal → Option α) : List PyVal → Option (List α)
  | [] => some []
  | v :: vs =>
    match f v, readList f vs with
    | some a, some rest => some (a :: rest)
    | _, _ => none

/-- Re-inspect a serialized condition dictionary. -/
def cond_from_dict : PyVal → Option CancerCondition
  | .vdict [(k1, v1), (k2, v2), (k3, v3), (k4, v4), (k5, v5), (k6, v6)] =>
    if k1 = "cancer_type".data ∧ k2 = "age_diagnosed".data
        ∧ k3 = "gleason_score".data ∧ k4 = "is_aggressive".data
        ∧ k5 = "is_metastatic".data ∧ k6 = "additional_notes".data then
      match asStr v1, asOptNat v2, asOptNat v3, asOptBool v4, asOptBool v5,
            asOptStr v6 with
      | some ct, some age, some gs, some ia, some im, some notes =>
        some { cancer_type := ct, age_diagnosed := age, gleason_score := gs,
               is_aggressive := ia, is_metastatic := im,
               additional_notes := notes }
      | _, _, _, _, _, _ => none
    else none
  | _ => none

/-- Re-inspect a serialized entry dictionary. -/
def entry_from_dict : PyVal → Option RelativeEntry
  | .vdict [(k1, v1), (k2, v2), (k3, v3), (k4, v4), (k5, v5)] =>
    if k1 = "relationship".data ∧ k2 = "relationship_type".data
        ∧ k3 = "specific_relative".data ∧ k4 = "is_same_relative".data
        ∧ k5 = "conditions".data then
      match asStr v1, asStr v2, asOptStr v3, v4, v5 with
      | some rel, some rtype, some spec, .vbool same, .vlist conds =>
        match readList cond_from_dict conds with
        | some cs =>
          some { relationship := rel, relationship_type := rtype,
                 specific_relative := spec, conditions := cs,
                 is_same_relative := same }
        | none => none
      | _, _, _, _, _ => none
    else none
  | _ => none

/-- Re-inspect a serialized parse-result dictionary. -/
def parsed_from_dict : PyVal → Option ParsedTestCase
  | .vdict [(k1, v1), (k2, v2), (k3, v3), (k4, v4), (k5, v5), (k6, v6)] =>
    if k1 = "expected_outcome".data ∧ k2 = "target_rule".data
        ∧ k3 = "platform".data ∧ k4 = "raw_notation".data
        ∧ k5 = "parse_errors".data ∧ k6 = "entries".data then
      match asStr v1, asOptStr v2, asOptStr v3, asStr v4, v5, v6 with
      | some eo, some tr, some pf, some raw, .vlist errs, .vlist ents =>
        match readList asStr errs, readList entry_from_dict ents with
        | some errv, some entv =>
          some { expected_outcome := eo, entries := entv,
                 raw_notation := raw, target_rule := tr, platform := pf,
                 parse_errors := errv }
        | _, _ => none
      | _, _, _, _, _, _ => none
    else none
  | _ => none

/-- Each serialized condition re-inspects to itself. -/
theorem cond_from_to (c : CancerCondition) :
    cond_from_dict (cond_to_dict c) = some c := by
  obtain ⟨ct, age, gs, ia, im, notes⟩ := c
  cases age <;> cases gs <;> cases ia <;> cases im <;> cases notes <;> rfl

/-- Re-inspecting a serialized list recovers the list. -/
theorem readList_map {α : Type} (f : α → PyVal) (g : PyVal → Option α)
    (hfg : ∀ a, g (f a) = some a) (l : List α) :
    readList g (l.map f) = some l := by
  induction l with
  | nil => rfl
  | cons a rest ih =>
    show readList g (f a :: rest.map f) = some (a :: rest)
    simp only [readList, hfg a, ih]

/-- Each serialized entry re-inspects to itself. -/
theorem entry_from_to (e : RelativeEntry) :
    entry_from_dict (entry_to_dict e) = some e := by
  obtain ⟨rel, rtype, spec, conds, same⟩ := e
  have hc : readList cond_from_dict (conds.map cond_to_dict) = some conds :=
    readList_map _ _ cond_from_to conds
  cases spec <;> simp [entry_to_dict, entry_from_dict, asStr, asOptStr, optStr, hc]

/-- C8: serialization is a lossless structural round-trip — for every
`ParsedTestCase` (in particular every one produced by `parse`), the
mapping built by the serializer carries the exact field names and nesting,
optional fields as explicit null markers, entries and conditions in order,
and structural re-inspection recovers every field of the original. -/
theorem c8_serialize_roundtrip (p : ParsedTestCase) :
    parsed_from_dict (serialize p) = some p := by
  obtain ⟨eo, ents, raw, tr, pf, errs⟩ := p
  have he : readList entry_from_dict (ents.map entry_to_dict) = some ents :=
    readList_map _ _ entry_from_to ents
  have hr : readList asStr (errs.map PyVal.vstr) = some errs :=
    readList_map PyVal.vstr asStr (fun _ => rfl) errs
  cases tr <;> cases pf <;>
    simp [serialize, parsed_from_dict, asStr, asOptStr, optStr, he, hr]

-- ===========================================================================
-- CLAIM C7 — the outcome extractor
-- ===========================================================================

/-- Whitespace characters are fixed by `Char.toLower`. -/
theorem toLower_eq_self_of_isSpace (c : Char) (h : isSpace c = true) :
    c.toLower = c := by
  simp [isSpace] at h
  rcases h with ((((h | h) | h) | h) | h) | h <;> subst h <;> decide

/-- A character whose lowercase form is a non-whitespace character is not
whitespace. -/
theorem isSpace_false_of_toLower (c x : Char) (h : c.toLower = x)
    (hx : isSpace x = false) : isSpace c = false := by
  cases hsp : isSpace c with
  | false => rfl
  | true =>
    have hcc := toLower_eq_self_of_isSpace c hsp
    rw [hcc] at h
    subst h
    rw [hsp] at hx
    cases hx

/-- A character whose lowercase form is not `:` is not `:`. -/
theorem ne_colon_of_toLower (c x : Char) (h : c.toLower = x) (hx : x ≠ ':') :
    c ≠ ':' := by
  intro hc
  subst hc
  apply hx
  rw [← h]
  decide

/-- A case-insensitive prefix match succeeds on any text whose lowercase
form starts with the token's lowercase form. -/
theorem ciStarts_of_lowerL (tok : List Char) :
    ∀ p t : List Char, lowerL p = lowerL tok → ciStarts tok (p ++ t) = some t := by
  induction tok with
  | nil =>
    intro p t hp
    have hpn : p = [] := by
      cases p with
      | nil => rfl
      | cons c cs => simp [lowerL] at hp
    subst hpn
    rfl
  | cons a as ih =>
    intro p t hp
    cases p with
    | nil => simp [lowerL] at hp
    | cons c cs =>
      simp only [lowerL, List.map_cons, List.cons.injEq] at hp
      obtain ⟨h1, h2⟩ := hp
    -- lowerEq a c holds since c.toLower = a.toLower
      have hle : lowerEq a c = true := by
        simp [lowerEq, h1]
      simp only [List.cons_append, ciStarts, hle, if_true]
      exact ih cs t h2

/-- A case-insensitive prefix match fails on a first-character mismatch. -/
theorem ciStarts_none_head (a : Char) (pat : List Char) (c : Char)
    (s : List Char) (h : a.toLower ≠ c.toLower) :
    ciStarts (a :: pat) (c :: s) = none := by
  have hle : lowerEq a c = false := by
    simp [lowerEq]
    exact h
  simp [ciStarts, hle]

/-- A successful case-insensitive prefix match decomposes the text. -/
theorem ciStarts_some (tok : List Char) :
    ∀ s r : List Char, ciStarts tok s = some r →
      ∃ p, s = p ++ r ∧ lowerL p = lowerL tok := by
  induction tok with
  | nil =>
    intro s r h
    cases h
    exact ⟨[], rfl, rfl⟩
  | cons a as ih =>
    intro s r h
    cases s with
    | nil => cases h
    | cons c cs =>
      unfold ciStarts at h
      cases hle : lowerEq a c with
      | false => rw [hle] at h; cases h
      | true =>
        rw [hle] at h
        simp only [if_true] at h
        obtain ⟨p, hp1, hp2⟩ := ih cs r h
        refine ⟨c :: p, by rw [List.cons_append, hp1], ?_⟩
        simp only [lowerL, List.map_cons, List.cons.injEq]
        constructor
        · simp [lowerEq] at hle
          exact hle.symm
        · exact hp2

/-- Dropping a `p`-satisfying run from the front of an append. -/
theorem dropWhile_append_of_all {p : Char → Bool} (w l : List Char)
    (hw : ∀ c ∈ w, p c = true) : (w ++ l).dropWhile p = l.dropWhile p := by
  induction w with
  | nil => rfl
  | cons c cs ih =>
    have hc := hw c (List.mem_cons_self _ _)
    simp only [List.cons_append, List.dropWhile_cons, hc, if_true]
    exact ih (fun x hx => hw x (List.mem_cons_of_mem _ hx))

/-- `dropWhile` is idempotent. -/
theorem dropWhile_idem (p : Char → Bool) (l : List Char) :
    (l.dropWhile p).dropWhile p = l.dropWhile p := by
  induction l with
  | nil => rfl
  | cons c cs ih =>
    rw [List.dropWhile_cons]
    cases hc : p c with
    | true => simpa [hc] using ih
    | false => simp [List.dropWhile_cons, hc]

/-- Stripping after dropping leading whitespace is just stripping. -/
theorem strip_dropWhile (l : List Char) :
    strip (l.dropWhile isSpace) = strip l := by
  unfold strip lstrip
  rw [dropWhile_idem]

/-- The separator `\s*:\s*` matches a whitespace run followed by a colon. -/
theorem matchSep_ws (w rest : List Char) (hw : ∀ c ∈ w, isSpace c = true) :
    matchSep (w ++ ':' :: rest) = some (rest.dropWhile isSpace) := by
  unfold matchSep
  rw [dropWhile_append_of_all w _ hw]
  rw [List.dropWhile_cons]
  simp [show isSpace ':' = false from rfl]

/-- The separator fails on a head character that is neither whitespace
nor a colon. -/
theorem matchSep_none_head (c : Char) (l : List Char)
    (h1 : isSpace c = false) (h2 : c ≠ ':') : matchSep (c :: l) = none := by
  unfold matchSep
  rw [List.dropWhile_cons, h1]
  simp only [Bool.false_eq_true, if_false]
  split
  · next u heq =>
    exact absurd (List.head_eq_of_cons_eq heq) h2
  · rfl

/-- A successful separator match decomposes its input into a whitespace
run, a colon, and the rest. -/
theorem matchSep_some (s u : List Char) (h : matchSep s = some u) :
    ∃ w rest, s = w ++ ':' :: rest ∧ (∀ c ∈ w, isSpace c = true) := by
  unfold matchSep at h
  cases hd : s.dropWhile isSpace with
  | nil => rw [hd] at h; cases h
  | cons c cs =>
    rw [hd] at h
    split at h
    · next u' heq =>
      refine ⟨s.takeWhile isSpace, cs, ?_, ?_⟩
      · have hc : c = ':' := List.head_eq_of_cons_eq heq
        have hcs : (':' : Char) :: cs = c :: cs := by rw [hc]
        calc s = s.takeWhile isSpace ++ s.dropWhile isSpace :=
              (List.takeWhile_append_dropWhile ..).symm
          _ = s.takeWhile isSpace ++ ':' :: cs := by rw [hd, ← hcs]
      · intro x hx
        exact List.mem_takeWhile_imp hx
    · cases h

/-- Computation step of `tryOutcome`: a failed token match moves on to the
next alternative. -/
theorem tryOutcome_step_none (tok : List Char) (rest : List (List Char))
    (s : List Char) (h : ciStarts tok s = none) :
    tryOutcome (tok :: rest) s = tryOutcome rest s := by
  conv_lhs => unfold tryOutcome
  split
  · next r heq => exact Option.noConfusion (h.symm.trans heq)
  · next heq => rfl

/-- Computation step of `tryOutcome`: a matched token whose separator
fails backtracks to the next alternative. -/
theorem tryOutcome_step_sepfail (tok : List Char) (rest : List (List Char))
    (s r : List Char) (h1 : ciStarts tok s = some r) (h2 : matchSep r = none) :
    tryOutcome (tok :: rest) s = tryOutcome rest s := by
  conv_lhs => unfold tryOutcome
  split
  · next r' heq =>
    have he := Option.some.inj (h1.symm.trans heq)
    subst he
    split
    · next rem heq2 => exact Option.noConfusion (h2.symm.trans heq2)
    · next heq2 => rfl
  · next heq => exact Option.noConfusion (h1.symm.trans heq)

/-- Computation step of `tryOutcome`: a matched token with a matching
separator produces the canonical outcome. -/
theorem tryOutcome_step_some (tok : List Char) (rest : List (List Char))
    (s r u : List Char) (h1 : ciStarts tok s = some r) (h2 : matchSep r = some u) :
    tryOutcome (tok :: rest) s
      = some ((lookupL OUTCOME_MAP tok).getD "unknown".data, strip u) := by
  conv_lhs => unfold tryOutcome
  split
  · next r' heq =>
    have he := Option.some.inj (h1.symm.trans heq)
    subst he
    split
    · next rem heq2 =>
      have he2 := Option.some.inj (h2.symm.trans heq2)
      subst he2
      rfl
    · next heq2 => exact Option.noConfusion (h2.symm.trans heq2)
  · next heq => exact Option.noConfusion (h1.symm.trans heq)

/-- Head decomposition of a string with known lowercase form. -/
theorem lowerL_head (p : List Char) (x : Char) (xs : List Char)
    (h : lowerL p = x :: xs) : ∃ c cs, p = c :: cs ∧ c.toLower = x := by
  cases p with
  | nil => simp [lowerL] at h
  | cons c cs =>
    simp only [lowerL, List.map_cons] at h
    exact ⟨c, cs, rfl, List.head_eq_of_cons_eq h⟩

/-- `lowerL` commutes with `take`. -/
theorem lowerL_take (n : Nat) (l : List Char) :
    lowerL (l.take n) = (lowerL l).take n := by
  simp [lowerL, List.map_take]

/-- `lowerL` commutes with `drop`. -/
theorem lowerL_drop (n : Nat) (l : List Char) :
    lowerL (l.drop n) = (lowerL l).drop n := by
  simp [lowerL, List.map_drop]

/-- A successful `tryOutcome` exhibits a matching token. -/
theorem tryOutcome_some (alts : List (List Char)) (s : List Char)
    (pr : List Char × List Char) (h : tryOutcome alts s = some pr) :
    ∃ tok ∈ alts, ∃ r u, ciStarts tok s = some r ∧ matchSep r = some u := by
  induction alts with
  | nil => cases h
  | cons tok rest ih =>
    unfold tryOutcome at h
    split at h
    · next r h1 =>
      split at h
      · next u h2 => exact ⟨tok, List.mem_cons_self _ _, r, u, h1, h2⟩
      · next h2 =>
        obtain ⟨t, ht, hr⟩ := ih h
        exact ⟨t, List.mem_cons_of_mem _ ht, hr⟩
    · next h1 =>
      obtain ⟨t, ht, hr⟩ := ih h
      exact ⟨t, List.mem_cons_of_mem _ ht, hr⟩

/-- Outcome extraction for a leading case-insensitive `POS`. -/
theorem extract_outcome_pos (p w rest : List Char)
    (hp : lowerL p = lowerL "POS".data) (hw : ∀ c ∈ w, isSpace c = true) :
    extract_outcome (p ++ w ++ ':' :: rest) = ("positive".data, strip rest) := by
  rw [List.append_assoc]
  have h1 : ciStarts "POS".data (p ++ (w ++ ':' :: rest)) = some (w ++ ':' :: rest) :=
    ciStarts_of_lowerL _ _ _ hp
  have h2 : matchSep (w ++ ':' :: rest) = some (rest.dropWhile isSpace) :=
    matchSep_ws w rest hw
  have hTry : tryOutcome OUTCOME_ALTS (p ++ (w ++ ':' :: rest))
      = some ("positive".data, strip (rest.dropWhile isSpace)) := by
    unfold OUTCOME_ALTS
    rw [tryOutcome_step_some _ _ _ _ _ h1 h2]
    rfl
  unfold extract_outcome
  rw [hTry, strip_dropWhile]

/-- Outcome extraction for a leading case-insensitive `NEG`. -/
theorem extract_outcome_neg (p w rest : List Char)
    (hp : lowerL p = lowerL "NEG".data) (hw : ∀ c ∈ w, isSpace c = true) :
    extract_outcome (p ++ w ++ ':' :: rest) = ("negative".data, strip rest) := by
  rw [List.append_assoc]
  have hp' : lowerL p = ['n', 'e', 'g'] := by rw [hp]; decide
  obtain ⟨c0, cs0, hpc, hc0⟩ := lowerL_head _ _ _ hp'
  have hPOS : ciStarts "POS".data (p ++ (w ++ ':' :: rest)) = none := by
    rw [hpc, List.cons_append]
    exact ciStarts_none_head 'P' _ c0 _ (by rw [hc0]; decide)
  have h1 : ciStarts "NEG".data (p ++ (w ++ ':' :: rest)) = some (w ++ ':' :: rest) :=
    ciStarts_of_lowerL _ _ _ hp
  have h2 : matchSep (w ++ ':' :: rest) = some (rest.dropWhile isSpace) :=
    matchSep_ws w rest hw
  have hTry : tryOutcome OUTCOME_ALTS (p ++ (w ++ ':' :: rest))
      = some ("negative".data, strip (rest.dropWhile isSpace)) := by
    unfold OUTCOME_ALTS
    rw [tryOutcome_step_none _ _ _ hPOS, tryOutcome_step_some _ _ _ _ _ h1 h2]
    rfl
  unfold extract_outcome
  rw [hTry, strip_dropWhile]

/-- Outcome extraction for a leading case-insensitive `POSITIVE`: the
earlier `POS` alternative matches the first three characters but its
separator then faces the `i` of `itive` and backtracks. -/
theorem extract_outcome_positive (p w rest : List Char)
    (hp : lowerL p = lowerL "POSITIVE".data) (hw : ∀ c ∈ w, isSpace c = true) :
    extract_outcome (p ++ w ++ ':' :: rest) = ("positive".data, strip rest) := by
  rw [List.append_assoc]
  have hp' : lowerL p = ['p', 'o', 's', 'i', 't', 'i', 'v', 'e'] := by rw [hp]; decide
  obtain ⟨c0, cs0, hpc, hc0⟩ := lowerL_head _ _ _ hp'
  have htk : lowerL (p.take 3) = lowerL "POS".data := by rw [lowerL_take, hp']; decide
  have hdr : lowerL (p.drop 3) = ['i', 't', 'i', 'v', 'e'] := by rw [lowerL_drop, hp']; decide
  obtain ⟨c3, cs3, hd1, hd2⟩ := lowerL_head _ _ _ hdr
  have hsplit : p ++ (w ++ ':' :: rest)
      = p.take 3 ++ (p.drop 3 ++ (w ++ ':' :: rest)) := by
    conv_rhs => rw [← List.append_assoc, List.take_append_drop]
  have hPOS1 : ciStarts "POS".data (p ++ (w ++ ':' :: rest))
      = some (p.drop 3 ++ (w ++ ':' :: rest)) := by
    rw [hsplit]
    exact ciStarts_of_lowerL _ _ _ htk
  have hPOS2 : matchSep (p.drop 3 ++ (w ++ ':' :: rest)) = none := by
    rw [hd1, List.cons_append]
    exact matchSep_none_head c3 _
      (isSpace_false_of_toLower c3 'i' hd2 (by decide))
      (ne_colon_of_toLower c3 'i' hd2 (by decide))
  have hNEG : ciStarts "NEG".data (p ++ (w ++ ':' :: rest)) = none := by
    rw [hpc, List.cons_append]
    exact ciStarts_none_head 'N' _ c0 _ (by rw [hc0]; decide)
  have h1 : ciStarts "POSITIVE".data (p ++ (w ++ ':' :: rest))
      = some (w ++ ':' :: rest) := ciStarts_of_lowerL _ _ _ hp
  have h2 : matchSep (w ++ ':' :: rest) = some (rest.dropWhile isSpace) :=
    matchSep_ws w rest hw
  have hTry : tryOutcome OUTCOME_ALTS (p ++ (w ++ ':' :: rest))
      = some ("positive".data, strip (rest.dropWhile isSpace)) := by
    unfold OUTCOME_ALTS
    rw [tryOutcome_step_sepfail _ _ _ _ hPOS1 hPOS2, tryOutcome_step_none _ _ _ hNEG,
      tryOutcome_step_some _ _ _ _ _ h1 h2]
    rfl
  unfold extract_outcome
  rw [hTry, strip_dropWhile]

/-- Outcome extraction for a leading case-insensitive `NEGATIVE`: the
earlier `NEG` alternative matches the first three characters but its
separator then faces the `a` of `ative` and backtracks. -/
theorem extract_outcome_negative (p w rest : List Char)
    (hp : lowerL p = lowerL "NEGATIVE".data) (hw : ∀ c ∈ w, isSpace c = true) :
    extract_outcome (p ++ w ++ ':' :: rest) = ("negative".data, strip rest) := by
  rw [List.append_assoc]
  have hp' : lowerL p = ['n', 'e', 'g', 'a', 't', 'i', 'v', 'e'] := by rw [hp]; decide
  obtain ⟨c0, cs0, hpc, hc0⟩ := lowerL_head _ _ _ hp'
  have htk : lowerL (p.take 3) = lowerL "NEG".data := by rw [lowerL_take, hp']; decide
  have hdr : lowerL (p.drop 3) = ['a', 't', 'i', 'v', 'e'] := by rw [lowerL_drop, hp']; decide
  obtain ⟨c3, cs3, hd1, hd2⟩ := lowerL_head _ _ _ hdr
  have hsplit : p ++ (w ++ ':' :: rest)
      = p.take 3 ++ (p.drop 3 ++ (w ++ ':' :: rest)) := by
    conv_rhs => rw [← List.append_assoc, List.take_append_drop]
  have hPOS : ciStarts "POS".data (p ++ (w ++ ':' :: rest)) = none := by
    rw [hpc, List.cons_append]
    exact ciStarts_none_head 'P' _ c0 _ (by rw [hc0]; decide)
  have hNEG1 : ciStarts "NEG".data (p ++ (w ++ ':' :: rest))
      = some (p.drop 3 ++ (w ++ ':' :: rest)) := by
    rw [hsplit]
    exact ciStarts_of_lowerL _ _ _ htk
  have hNEG2 : matchSep (p.drop 3 ++ (w ++ ':' :: rest)) = none := by
    rw [hd1, List.cons_append]
    exact matchSep_none_head c3 _
      (isSpace_false_of_toLower c3 'a' hd2 (by decide))
      (ne_colon_of_toLower c3 'a' hd2 (by decide))
  have hPOSITIVE : ciStarts "POSITIVE".data (p ++ (w ++ ':' :: rest)) = none := by
    rw [hpc, List.cons_append]
    exact ciStarts_none_head 'P' _ c0 _ (by rw [hc0]; decide)
  have h1 : ciStarts "NEGATIVE".data (p ++ (w ++ ':' :: rest))
      = some (w ++ ':' :: rest) := ciStarts_of_lowerL _ _ _ hp
  have h2 : matchSep (w ++ ':' :: rest) = some (rest.dropWhile isSpace) :=
    matchSep_ws w rest hw
  have hTry : tryOutcome OUTCOME_ALTS (p ++ (w ++ ':' :: rest))
      = some ("negative".data, strip (rest.dropWhile isSpace)) := by
    unfold OUTCOME_ALTS
    rw [tryOutcome_step_none _ _ _ hPOS, tryOutcome_step_sepfail _ _ _ _ hNEG1 hNEG2,
      tryOutcome_step_none _ _ _ hPOSITIVE, tryOutcome_step_some _ _ _ _ _ h1 h2]
    rfl
  unfold extract_outcome
  rw [hTry, strip_dropWhile]

/-- Outcome extraction for a leading case-insensitive `DEP`. -/
theorem extract_outcome_dep (p w rest : List Char)
    (hp : lowerL p = lowerL "DEP".data) (hw : ∀ c ∈ w, isSpace c = true) :
    extract_outcome (p ++ w ++ ':' :: rest) = ("deprecated".data, strip rest) := by
  rw [List.append_assoc]
  have hp' : lowerL p = ['d', 'e', 'p'] := by rw [hp]; decide
  obtain ⟨c0, cs0, hpc, hc0⟩ := lowerL_head _ _ _ hp'
  have hPOS : ciStarts "POS".data (p ++ (w ++ ':' :: rest)) = none := by
    rw [hpc, List.cons_append]
    exact ciStarts_none_head 'P' _ c0 _ (by rw [hc0]; decide)
  have hNEG : ciStarts "NEG".data (p ++ (w ++ ':' :: rest)) = none := by
    rw [hpc, List.cons_append]
    exact ciStarts_none_head 'N' _ c0 _ (by rw [hc0]; decide)
  have hPOSITIVE : ciStarts "POSITIVE".data (p ++ (w ++ ':' :: rest)) = none := by
    rw [hpc, List.cons_append]
    exact ciStarts_none_head 'P' _ c0 _ (by rw [hc0]; decide)
  have hNEGATIVE : ciStarts "NEGATIVE".data (p ++ (w ++ ':' :: rest)) = none := by
    rw [hpc, List.cons_append]
    exact ciStarts_none_head 'N' _ c0 _ (by rw [hc0]; decide)
  have h1 : ciStarts "DEP".data (p ++ (w ++ ':' :: rest)) = some (w ++ ':' :: rest) :=
    ciStarts_of_lowerL _ _ _ hp
  have h2 : matchSep (w ++ ':' :: rest) = some (rest.dropWhile isSpace) :=
    matchSep_ws w rest hw
  have hTry : tryOutcome OUTCOME_ALTS (p ++ (w ++ ':' :: rest))
      = some ("deprecated".data, strip (rest.dropWhile isSpace)) := by
    unfold OUTCOME_ALTS
    rw [tryOutcome_step_none _ _ _ hPOS, tryOutcome_step_none _ _ _ hNEG,
      tryOutcome_step_none _ _ _ hPOSITIVE, tryOutcome_step_none _ _ _ hNEGATIVE,
      tryOutcome_step_some _ _ _ _ _ h1 h2]
    rfl
  unfold extract_outcome
  rw [hTry, strip_dropWhile]

/-- Outcome extraction for a leading case-insensitive `DEPRECATED`: the
earlier `DEP` alternative matches the first three characters but its
separator then faces the `r` of `recated` and backtracks. -/
theorem extract_outcome_deprecated (p w rest : List Char)
    (hp : lowerL p = lowerL "DEPRECATED".data) (hw : ∀ c ∈ w, isSpace c = true) :
    extract_outcome (p ++ w ++ ':' :: rest) = ("deprecated".data, strip rest) := by
  rw [List.append_assoc]
  have hp' : lowerL p = ['d', 'e', 'p', 'r', 'e', 'c', 'a', 't', 'e', 'd'] := by
    rw [hp]; decide
  obtain ⟨c0, cs0, hpc, hc0⟩ := lowerL_head _ _ _ hp'
  have htk : lowerL (p.take 3) = lowerL "DEP".data := by rw [lowerL_take, hp']; decide
  have hdr : lowerL (p.drop 3) = ['r', 'e', 'c', 'a', 't', 'e', 'd'] := by
    rw [lowerL_drop, hp']; decide
  obtain ⟨c3, cs3, hd1, hd2⟩ := lowerL_head _ _ _ hdr
  have hsplit : p ++ (w ++ ':' :: rest)
      = p.take 3 ++ (p.drop 3 ++ (w ++ ':' :: rest)) := by
    conv_rhs => rw [← List.append_assoc, List.take_append_drop]
  have hPOS : ciStarts "POS".data (p ++ (w ++ ':' :: rest)) = none := by
    rw [hpc, List.cons_append]
    exact ciStarts_none_head 'P' _ c0 _ (by rw [hc0]; decide)
  have hNEG : ciStarts "NEG".data (p ++ (w ++ ':' :: rest)) = none := by
    rw [hpc, List.cons_append]
    exact ciStarts_none_head 'N' _ c0 _ (by rw [hc0]; decide)
  have hPOSITIVE : ciStarts "POSITIVE".data (p ++ (w ++ ':' :: rest)) = none := by
    rw [hpc, List.cons_append]
    exact ciStarts_none_head 'P' _ c0 _ (by rw [hc0]; decide)
  have hNEGATIVE : ciStarts "NEGATIVE".data (p ++ (w ++ ':' :: rest)) = none := by
    rw [hpc, List.cons_append]
    exact ciStarts_none_head 'N' _ c0 _ (by rw [hc0]; decide)
  have hDEP1 : ciStarts "DEP".data (p ++ (w ++ ':' :: rest))
      = some (p.drop 3 ++ (w ++ ':' :: rest)) := by
    rw [hsplit]
    exact ciStarts_of_lowerL _ _ _ htk
  have hDEP2 : matchSep (p.drop 3 ++ (w ++ ':' :: rest)) = none := by
    rw [hd1, List.cons_append]
    exact matchSep_none_head c3 _
      (isSpace_false_of_toLower c3 'r' hd2 (by decide))
      (ne_colon_of_toLower c3 'r' hd2 (by decide))
  have h1 : ciStarts "DEPRECATED".data (p ++ (w ++ ':' :: rest))
      = some (w ++ ':' :: rest) := ciStarts_of_lowerL _ _ _ hp
  have h2 : matchSep (w ++ ':' :: rest) = some (rest.dropWhile isSpace) :=
    matchSep_ws w rest hw
  have hTry : tryOutcome OUTCOME_ALTS (p ++ (w ++ ':' :: rest))
      = some ("deprecated".data, strip (rest.dropWhile isSpace)) := by
    unfold OUTCOME_ALTS
    rw [tryOutcome_step_none _ _ _ hPOS, tryOutcome_step_none _ _ _ hNEG,
      tryOutcome_step_none _ _ _ hPOSITIVE, tryOutcome_step_none _ _ _ hNEGATIVE,
      tryOutcome_step_sepfail _ _ _ _ hDEP1 hDEP2,
      tryOutcome_step_some _ _ _ _ _ h1 h2]
    rfl
  unfold extract_outcome
  rw [hTry, strip_dropWhile]

/-- Every segment produced by `_split_by_and` is non-empty (the
comprehension filters on the stripped part being truthy). -/
theorem split_by_and_ne_nil (s : List Char) :
    ∀ e ∈ split_by_and s, e ≠ [] := by
  intro e he hc
  unfold split_by_and at he
  have h := List.of_mem_filter he
  rw [hc] at h
  simp at h

/-- C7: the outcome extractor.
First part: a notation beginning, case-insensitively, with one of the six
outcome prefixes followed by the separator (optional whitespace, a colon,
optional whitespace) resolves to the prefix's canonical value with the
remainder stripped of prefix and separator and trimmed.
Second part: a notation with no such leading prefix yields `unknown` and
the input unchanged.
Third part: the only parse errors the orchestrator ever records are the
empty-notation and empty-remainder messages — never one for a missing
outcome prefix. -/
theorem c7_outcome_extraction :
    (∀ p w rest tok canon : List Char, (tok, canon) ∈ OUTCOME_MAP →
        lowerL p = lowerL tok → (∀ c ∈ w, isSpace c = true) →
        extract_outcome (p ++ w ++ ':' :: rest) = (canon, strip rest)) ∧
    (∀ s : List Char,
        (¬ ∃ tok canon p w rest : List Char, (tok, canon) ∈ OUTCOME_MAP ∧
            s = p ++ w ++ ':' :: rest ∧ lowerL p = lowerL tok ∧
            ∀ c ∈ w, isSpace c = true) →
        extract_outcome s = ("unknown".data, s)) ∧
    (∀ (nota : List Char) (tr pf : Option (List Char)),
        ∀ e ∈ ( parse nota tr pf).parse_errors,
        e = "Empty notation string".data
          ∨ e = "No conditions found after outcome".data) := by
  refine ⟨?_, ?_, ?_⟩
  · intro p w rest tok canon hmem hp hw
    simp only [OUTCOME_MAP, List.mem_cons, List.not_mem_nil, or_false,
      Prod.mk.injEq] at hmem
    rcases hmem with ⟨h1, h2⟩ | ⟨h1, h2⟩ | ⟨h1, h2⟩ | ⟨h1, h2⟩ | ⟨h1, h2⟩ | ⟨h1, h2⟩ <;>
      subst h1 <;> subst h2
    · exact extract_outcome_pos p w rest hp hw
    · exact extract_outcome_positive p w rest hp hw
    · exact extract_outcome_neg p w rest hp hw
    · exact extract_outcome_negative p w rest hp hw
    · exact extract_outcome_dep p w rest hp hw
    · exact extract_outcome_deprecated p w rest hp hw
  · intro s hno
    unfold extract_outcome
    cases ht : tryOutcome OUTCOME_ALTS s with
    | none => rfl
    | some pr =>
      exfalso
      apply hno
      obtain ⟨tok, htok, r, u, hci, hsep⟩ := tryOutcome_some _ _ _ ht
      obtain ⟨p, hs, hp⟩ := ciStarts_some _ _ _ hci
      obtain ⟨w, rest, hr, hw⟩ := matchSep_some _ _ hsep
      have hs2 : s = p ++ w ++ ':' :: rest := by
        rw [hs, hr, ← List.append_assoc]
      simp only [OUTCOME_ALTS, List.mem_cons, List.not_mem_nil, or_false] at htok
      rcases htok with h | h | h | h | h | h <;> subst h
      · exact ⟨"POS".data, "positive".data, p, w, rest, by decide, hs2, hp, hw⟩
      · exact ⟨"NEG".data, "negative".data, p, w, rest, by decide, hs2, hp, hw⟩
      · exact ⟨"POSITIVE".data, "positive".data, p, w, rest, by decide, hs2, hp, hw⟩
      · exact ⟨"NEGATIVE".data, "negative".data, p, w, rest, by decide, hs2, hp, hw⟩
      · exact ⟨"DEP".data, "deprecated".data, p, w, rest, by decide, hs2, hp, hw⟩
      · exact ⟨"DEPRECATED".data, "deprecated".data, p, w, rest, by decide, hs2, hp, hw⟩
  · intro nota tr pf e he
    unfold parse at he
    cases h1 : (strip nota).isEmpty with
    | true =>
      simp only [h1, if_true] at he
      simp at he
      exact Or.inl he
    | false =>
      simp only [h1, Bool.false_eq_true, if_false] at he
      cases h2 : (extract_outcome (strip nota)).2.isEmpty with
      | true =>
        simp only [h2, if_true] at he
        simp at he
        exact Or.inr he
      | false =>
        simp only [h2, Bool.false_eq_true, if_false] at he
        obtain ⟨herr, _⟩ :=
          parseEntries_spec _ (split_by_and_ne_nil (extract_outcome (strip nota)).2)
        rw [herr] at he
        cases he

/-- C7 witness: a lowercase `neg` prefix with padding resolves to
`negative` with the remainder trimmed, and a notation starting with a
relationship code instead of an outcome prefix resolves to `unknown`
unchanged while recording no parse error. -/
theorem c7_outcome_extraction_witness :
    extract_outcome "neg : X".data = ("negative".data, "X".data) ∧
    extract_outcome "X:".data = ("unknown".data, "X:".data) ∧
    ( parse "X:".data none none).parse_errors = [] := by
  refine ⟨?_, ?_, by rfl⟩
  · have h := c7_outcome_extraction.1 "neg".data " ".data " X".data
      "NEG".data "negative".data (by decide) (by decide) (by decide)
    have he : "neg".data ++ " ".data ++ ':' :: " X".data = "neg : X".data := by decide
    have hs : strip " X".data = "X".data := by decide
    rw [he, hs] at h
    exact h
  · apply c7_outcome_extraction.2.1
    rintro ⟨tok, canon, p, w, rest, hmem, hs, hp, hw⟩
    have hplen : p.length = tok.length := by
      have h0 := congrArg List.length hp
      simpa [lowerL] using h0
    have hlen : ("X:".data).length = (p ++ w ++ ':' :: rest).length :=
      congrArg List.length hs
    simp only [List.length_append, List.length_cons, List.length_nil] at hlen
    have h2 : ("X:".data).length = 2 := rfl
    have h3 : 3 ≤ tok.length := by
      simp only [OUTCOME_MAP, List.mem_cons, List.not_mem_nil, or_false,
        Prod.mk.injEq] at hmem
      rcases hmem with ⟨h1, _⟩ | ⟨h1, _⟩ | ⟨h1, _⟩ | ⟨h1, _⟩ | ⟨h1, _⟩ | ⟨h1, _⟩ <;>
        subst h1 <;> decide
    omega

end NCCN
